import Mathlib

/-!
Formal model of the rltf agent lifecycle and off-policy training loop
(files rltf/agents/agent.py and rltf/models/dqn.py), together with proofs
of the behavioural properties of the training cadence, the thread
handshake, checkpoint save/restore, the evaluation runner and the DQN
action tensors.
-/

set_option maxHeartbeats 1000000
set_option maxRecDepth 8000

/-- Python `range(a, b)` over integers: the list `a, a+1, ..., b-1`. -/
def pyRange (a b : Int) : List Int :=
  (List.range (b - a).toNat).map (fun i : Nat => a + (i : Int))

/-- Configuration fields of `OffPolicyAgent` read by `_train_model`
(agent.py 425-449): the step range, the training-start step, the training
period, the target-update period, the save period, and the value of
`learn_started` when `train()` is entered. -/
structure NetConfig where
  start_step : Int
  stop_step : Int
  start_train : Int
  train_freq : Int
  update_target_freq : Int
  save_freq : Int
  learn_started : Bool
deriving DecidableEq, Repr

/-- Observable events of the learning executor `_train_model`:
a gradient step (agent.py 437), a target-network synchronization
(agent.py 440-441), and a checkpoint save (agent.py 446-447 together with
the `learn_started` guard inside `Agent.save`, agent.py 262). -/
inductive NetEvent
  | train (t : Int)
  | syncTarget (t : Int)
  | save (t : Int)
deriving DecidableEq, Repr

/-- One iteration of the loop body of `OffPolicyAgent._train_model`
(agent.py 425-449), projected to its training, target-sync and save
events. The branch condition is `t >= self.start_train and
t % self.train_freq == 0` (line 427); inside the branch `learn_started`
is set to `True` (line 429) and the target network is synchronized when
`t % self.update_target_freq == 0` (lines 440-441); afterwards a save is
attempted when `self.save_freq > 0 and t % self.save_freq == 0`
(lines 446-447), and `Agent.save` itself is a no-op unless
`learn_started` (line 262). Returns the updated `learn_started` flag and
the events of this iteration in program order. -/
def trainModelBody (cfg : NetConfig) (learn_started : Bool) (t : Int) :
    Bool × List NetEvent :=
  if cfg.start_train ≤ t ∧ t % cfg.train_freq = 0 then
    let learn_started := true
    let evs := NetEvent.train t ::
      (if t % cfg.update_target_freq = 0 then [NetEvent.syncTarget t] else [])
    let evs := evs ++
      (if 0 < cfg.save_freq ∧ t % cfg.save_freq = 0 ∧ learn_started = true then
        [NetEvent.save t] else [])
    (learn_started, evs)
  else
    let evs :=
      if 0 < cfg.save_freq ∧ t % cfg.save_freq = 0 ∧ learn_started = true then
        [NetEvent.save t] else []
    (learn_started, evs)

/-- The loop of `_train_model` over the remaining steps, threading the
`learn_started` flag through the iterations. -/
def trainModelLoop (cfg : NetConfig) : Bool → List Int → List NetEvent
  | _, [] => []
  | learn_started, t :: ts =>
    let r := trainModelBody cfg learn_started t
    r.2 ++ trainModelLoop cfg r.1 ts

/-- Event trace of `OffPolicyAgent._train_model` over its whole step range
`range(self.start_step, self.stop_step+1)` (agent.py 425). -/
def trainModelRun (cfg : NetConfig) : List NetEvent :=
  trainModelLoop cfg cfg.learn_started (pyRange cfg.start_step (cfg.stop_step + 1))

/-- The scenario configuration of the spec: `train_freq=4`, `start_train=10`,
`stop_step=20`, `target_update_freq=10`, fresh build (`start_step=1`,
`learn_started=false`), default `save_freq=100000`. -/
def scenarioConfig : NetConfig :=
  { start_step := 1, stop_step := 20, start_train := 10, train_freq := 4,
    update_target_freq := 10, save_freq := 100000, learn_started := false }

/-- Whether a `NetEvent` is a gradient step. -/
def NetEvent.isTrain : NetEvent → Bool
  | NetEvent.train _ => true
  | _ => false

/-- Whether a `NetEvent` is a target-network synchronization. -/
def NetEvent.isSync : NetEvent → Bool
  | NetEvent.syncTarget _ => true
  | _ => false

/-- The two synchronization signals of `OffPolicyAgent`: the
`threading.Event` objects `_act_chosen` and `_train_done`
(agent.py 293-294). -/
inductive Sig
  | actChosen
  | trainDone
deriving DecidableEq, Repr

/-- The signal-relevant instructions of the two executor threads.
`wait s` models `_wait_act_chosen` / `_wait_train_done`
(agent.py 452-462): block until the event is set, then clear it
immediately after observing it. `signal s` models
`_signal_act_chosen` / `_signal_train_done` (agent.py 464-470): set the
event. -/
inductive Instr
  | wait (s : Sig)
  | signal (s : Sig)
deriving DecidableEq, Repr

/-- The signal skeleton of `_run_env` (agent.py 369-414) for `n` loop
iterations: each iteration calls `self._wait_train_done()` (line 383)
and later `self._signal_act_chosen()` (line 398); the evaluation run,
action selection, environment step and replay-buffer store between the
two are internal to the thread and carry no signal operations. `n` is
the length of `range(self.start_step, self.stop_step+1)`. -/
def envProg : Nat → List Instr
  | 0 => []
  | Nat.succ n => Instr.wait Sig.trainDone :: Instr.signal Sig.actChosen :: envProg n

/-- The signal skeleton of `_train_model` (agent.py 417-449) for `n` loop
iterations: each iteration calls `self._wait_act_chosen()` (line 434 or
444, on both branches) and finishes with `self._signal_train_done()`
(line 449); the feed-dict construction, gradient step, target sync and
save around them are internal to the thread. -/
def netProg : Nat → List Instr
  | 0 => []
  | Nat.succ n => Instr.wait Sig.actChosen :: Instr.signal Sig.trainDone :: netProg n

/-- State of the two-thread handshake: the two event flags, the remaining
instructions of each thread, and the trace of signal-set events emitted
so far. -/
structure Sync where
  actChosen : Bool
  trainDone : Bool
  env : List Instr
  net : List Instr
  trace : List Sig
deriving DecidableEq, Repr

/-- Read one of the two event flags. -/
def getFlag (s : Sync) : Sig → Bool
  | Sig.actChosen => s.actChosen
  | Sig.trainDone => s.trainDone

/-- Write one of the two event flags. -/
def setFlag (s : Sync) (e : Sig) (b : Bool) : Sync :=
  match e with
  | Sig.actChosen => { s with actChosen := b }
  | Sig.trainDone => { s with trainDone := b }

/-- Interleaving semantics of the two executor threads: either thread may
execute its next instruction. A `wait` is enabled only when the awaited
event flag is set, and clears the flag as it completes (the
`while not set: wait` followed by `clear` of agent.py 452-462); a
`signal` is always enabled, sets the flag and appends the event to the
trace. -/
inductive SyncStep : Sync → Sync → Prop
  | envWait (s : Sync) (e : Sig) (rest : List Instr) :
      s.env = Instr.wait e :: rest → getFlag s e = true →
      SyncStep s { setFlag s e false with env := rest }
  | envSignal (s : Sync) (e : Sig) (rest : List Instr) :
      s.env = Instr.signal e :: rest →
      SyncStep s { setFlag s e true with env := rest, trace := s.trace ++ [e] }
  | netWait (s : Sync) (e : Sig) (rest : List Instr) :
      s.net = Instr.wait e :: rest → getFlag s e = true →
      SyncStep s { setFlag s e false with net := rest }
  | netSignal (s : Sync) (e : Sig) (rest : List Instr) :
      s.net = Instr.signal e :: rest →
      SyncStep s { setFlag s e true with net := rest, trace := s.trace ++ [e] }

/-- Zero or more interleaving steps. -/
inductive SyncSteps : Sync → Sync → Prop
  | refl (s : Sync) : SyncSteps s s
  | step {s s' s'' : Sync} : SyncStep s s' → SyncSteps s' s'' → SyncSteps s s''

/-- A state from which neither thread can take a step. -/
def SyncTerminal (s : Sync) : Prop := ∀ s', ¬ SyncStep s s'

/-- The state set up by `OffPolicyAgent.train` before either thread is
started (agent.py 299-306): `self._act_chosen.clear()` then
`self._train_done.set()`, with both executors about to run `n` loop
iterations and no signal event emitted yet. -/
def initSync (n : Nat) : Sync :=
  { actChosen := false, trainDone := true,
    env := envProg n, net := netProg n, trace := [] }

/-- The alternating event sequence emitted by the executors over `n`
steps: `act_chosen, train_done, act_chosen, train_done, ...`. -/
def handshakeTrace : Nat → List Sig
  | 0 => []
  | Nat.succ n => Sig.actChosen :: Sig.trainDone :: handshakeTrace n

/-- Strict alternation of a signal sequence: no two adjacent events are
equal. -/
def alternates : List Sig → Bool
  | [] => true
  | [_] => true
  | a :: b :: r => decide (a ≠ b) && alternates (b :: r)

/-- Number of occurrences of a signal event in an event sequence. -/
def countSig (e : Sig) : List Sig → Nat
  | [] => 0
  | a :: r => (if a = e then 1 else 0) + countSig e r

/-- Names of the graph operations created by the fresh build path that are
relevant to the restore path: the timestep variable `t_tf` (agent.py 96),
the increment op created with `name="t_inc_op"` (agent.py 97), the
merged-summary op produced by `tf.summary.merge_all()` (agent.py 100),
and the DQN action ops `a_train` / `a_eval` (dqn.py 64-65 with the
`name` arguments of dqn.py 169 and 174). -/
def freshBuildOpNames : List String :=
  ["t_tf", "t_inc_op", "Merge/MergeSummary", "a_train", "a_eval"]

/-- `tf.Graph.get_operation_by_name`: returns the operation when an op of
that name exists in the graph, raises (modelled as `Except.error` naming
the missing handle) otherwise. -/
def getOperationByName (graph : List String) (n : String) : Except String String :=
  if graph.contains n then Except.ok n else Except.error n

/-- `tf.Graph.get_tensor_by_name`: the output tensor `"op:0"` exists
exactly when the operation `op` exists. -/
def getTensorByName (graph : List String) (n : String) : Except String String :=
  if graph.any (fun op => op ++ ":0" == n) then Except.ok n else Except.error n

/-- The control variables set at the end of the restore branch of
`Agent.build` (agent.py 140-142): `start_step` is the value read from
the restored `t_tf` variable and `learn_started` is `True`. -/
structure ControlVars where
  start_step : Int
  learn_started : Bool
deriving DecidableEq, Repr

/-- Lines 140-142 of agent.py in isolation: set
`self.start_step = self.sess.run(self.t_tf)` and
`self.learn_started = True`. -/
def restoreControlVars (persisted_t_tf : Int) : ControlVars :=
  { start_step := persisted_t_tf, learn_started := true }

/-- The restore branch of `Agent.build` (agent.py 114-142) for a DQN
model: the handle lookups it performs in program order —
`get_tensor_by_name("t_tf:0")` (line 124),
`get_operation_by_name("t_tf_inc")` (line 125), the `BaseDQN._restore`
lookups `a_train:0` and `a_eval:0` (dqn.py 100-101), and
`get_tensor_by_name("Merge/MergeSummary:0")` (line 138) — followed by
setting the control variables (lines 140-142). `persisted_t_tf` is the
value of the `t_tf` variable stored in the checkpoint. -/
def Agent.buildRestore (graph : List String) (persisted_t_tf : Int) :
    Except String ControlVars := do
  let _ ← getTensorByName graph "t_tf:0"
  let _ ← getOperationByName graph "t_tf_inc"
  let _ ← getTensorByName graph "a_train:0"
  let _ ← getTensorByName graph "a_eval:0"
  let _ ← getTensorByName graph "Merge/MergeSummary:0"
  pure (restoreControlVars persisted_t_tf)

/-- The value of the `t_tf` variable after the environment executor has
completed `steps` environment steps: initialized to `1` (agent.py 96) and
incremented exactly once per step by `self.sess.run(self.t_tf_inc)`
(agent.py 400-401). -/
def t_tf_after : Nat → Int
  | 0 => 1
  | Nat.succ steps => t_tf_after steps + 1

/-- The `eval_runs` update and loop range of one call of
`OffPolicyAgent.eval` (agent.py 319-326): `self.eval_runs += 1`,
`start_step = self.eval_len * self.eval_runs + 1`,
`stop_step = self.eval_len + start_step`, and the loop
`for t in range(start_step, stop_step)`. Returns the updated counter and
the iterated steps. -/
def evalCallRange (eval_len : Int) (eval_runs : Int) : Int × List Int :=
  let eval_runs := eval_runs + 1
  let start_step := eval_len * eval_runs + 1
  let stop_step := eval_len + start_step
  (eval_runs, pyRange start_step stop_step)

/-- The `eval_runs` counter after `r` calls of `eval`, starting from the
initial value `-1` set in `Agent.__init__` (agent.py 58). -/
def evalRunsAfter (eval_len : Int) : Nat → Int
  | 0 => -1
  | Nat.succ r => (evalCallRange eval_len (evalRunsAfter eval_len r)).1

/-- The steps iterated by the `r`-th call (0-indexed) of `eval`. -/
def nthEvalSteps (eval_len : Int) (r : Nat) : List Int :=
  (evalCallRange eval_len (evalRunsAfter eval_len r)).2

/-- The evaluation guard of `_run_env` (agent.py 386):
`if self.eval_len > 0 and t % self.eval_freq == 0`, with Python's
short-circuiting `and`; `none` models the `ZeroDivisionError` raised by
`t % 0`. -/
def evalDueGuard (eval_len eval_freq : Int) (t : Int) : Option Bool :=
  if 0 < eval_len then
    if eval_freq = 0 then none
    else some (decide (t % eval_freq = 0))
  else some false

/-- The `eval()` invocations made by the `_run_env` loop over a list of
steps: at each step the guard of agent.py 386 is evaluated (propagating a
`ZeroDivisionError` as `none`) and `self.eval()` is invoked when it
holds. Returns the steps at which `eval()` was invoked. -/
def runEnvEvalSteps (eval_len eval_freq : Int) : List Int → Option (List Int)
  | [] => some []
  | t :: ts => do
    let due ← evalDueGuard eval_len eval_freq t
    let rest ← runEnvEvalSteps eval_len eval_freq ts
    pure (if due then t :: rest else rest)

/-- The `eval()` invocations of `_run_env` over its whole step range
`range(self.start_step, self.stop_step+1)` (agent.py 379). -/
def runEnvEvalCalls (eval_len eval_freq start_step stop_step : Int) :
    Option (List Int) :=
  runEnvEvalSteps eval_len eval_freq (pyRange start_step (stop_step + 1))

/-- The environment collaborator interface used by `eval` (spec section 6):
`reset() → observation` and `step(action) → (observation, reward, done,
info)`. The internal environment state is an opaque `Nat`; rewards and
info are irrelevant to the modelled claims and omitted. -/
structure GymEnv where
  reset : Nat → Nat × Nat
  step : Nat → Nat → Nat × Bool × Nat

/-- Agent state visible during `OffPolicyAgent.eval`: the monitor mode
(`self.env_monitor.mode`) together with the history of writes to it, the
`eval_runs` counter, the `learn_started` flag, the model's learnable
parameters, the replay-buffer contents, per-episode internal state, the
`log_stats` calls made on the monitor, and the environment state. -/
structure EvalState where
  mode : Char
  modeWrites : List Char
  eval_runs : Int
  learn_started : Bool
  agentParams : Nat
  replay : List Nat
  episodeState : Nat
  monitorLogs : List Int
  envState : Nat
deriving Repr

/-- `Agent.reset` (agent.py 160-170) with a DQN model: when
`learn_started`, calls `self.model.reset(self.sess)` — which for
`BaseDQN` is `pass` (dqn.py 109-110), touching nothing — and
`self._reset()`, then returns `self.env.reset()`. The subclass `_reset`
is not among the sources; modelled from the spec: `reset` only
"notifies the model to clear any per-episode internal state (e.g.
recurrent state, noise processes)", so it is an arbitrary function
`clearEp` of the episode-scoped state alone. -/
def Agent.reset (E : GymEnv) (clearEp : Nat → Nat) (s : EvalState) :
    Nat × EvalState :=
  let s := if s.learn_started then { s with episodeState := clearEp s.episodeState } else s
  let r := E.reset s.envState
  (r.1, { s with envState := r.2 })

/-- One iteration of the loop body of `OffPolicyAgent.eval`
(agent.py 326-343): select an evaluation action via the model
(`self._action_eval(obs, t)`, a pure function of the parameters and the
observation — for `BaseDQN.action_eval` it is `sess.run(self.a_eval)`,
dqn.py 120-124), step the environment, reset on episode end, advance the
observation, and call `self.env_monitor.log_stats(t)` when
`t % self.log_freq == 0`. -/
def OffPolicyAgent.evalBody (E : GymEnv) (actionEval : Nat → Nat → Nat)
    (clearEp : Nat → Nat) (log_freq : Int) (s : EvalState) (obs : Nat)
    (t : Int) : Nat × EvalState :=
  let action := actionEval s.agentParams obs
  let stepR := E.step s.envState action
  let next_obs := stepR.1
  let done := stepR.2.1
  let s := { s with envState := stepR.2.2 }
  let p := if done then Agent.reset E clearEp s else (next_obs, s)
  let obs := p.1
  let s := p.2
  let s := if t % log_freq = 0 then { s with monitorLogs := s.monitorLogs ++ [t] } else s
  (obs, s)

/-- The loop of `OffPolicyAgent.eval` over its steps. -/
def OffPolicyAgent.evalLoop (E : GymEnv) (actionEval : Nat → Nat → Nat)
    (clearEp : Nat → Nat) (log_freq : Int) :
    List Int → Nat → EvalState → Nat × EvalState
  | [], obs, s => (obs, s)
  | t :: ts, obs, s =>
    let r := OffPolicyAgent.evalBody E actionEval clearEp log_freq s obs t
    OffPolicyAgent.evalLoop E actionEval clearEp log_freq ts r.1 r.2

/-- `OffPolicyAgent.eval` (agent.py 313-348): set the monitor to
evaluation mode (`self.env_monitor.mode = 'e'`, line 318), increment
`eval_runs` (line 319), compute the step range (lines 321-322), reset
the environment (line 324), run the loop, and restore the monitor to
training mode (`self.env_monitor.mode = 't'`, line 346). -/
def OffPolicyAgent.eval (E : GymEnv) (actionEval : Nat → Nat → Nat)
    (clearEp : Nat → Nat) (eval_len log_freq : Int) (s : EvalState) :
    EvalState :=
  let s := { s with mode := 'e', modeWrites := s.modeWrites ++ ['e'] }
  let s := { s with eval_runs := s.eval_runs + 1 }
  let start_step := eval_len * s.eval_runs + 1
  let stop_step := eval_len + start_step
  let resetR := E.reset s.envState
  let obs := resetR.1
  let s := { s with envState := resetR.2 }
  let r := OffPolicyAgent.evalLoop E actionEval clearEp log_freq
    (pyRange start_step stop_step) obs s
  let s := r.2
  { s with mode := 't', modeWrites := s.modeWrites ++ ['t'] }

/-- Agent state read by `Agent.save`: the `learn_started` flag, the
`t_tf` counter, the model parameters and the monitor statistics. -/
structure SaveState where
  learn_started : Bool
  t_tf : Int
  agentParams : Nat
  monitorStats : Nat
deriving DecidableEq, Repr

/-- Persistence calls made by `Agent.save`: `self.env_monitor.save()`
(agent.py 266) persisting the statistics snapshot, and
`self.saver.save(self.sess, self.model_dir, global_step=self.t_tf)`
(agent.py 269) persisting the model parameters keyed by the timestep
counter. -/
inductive SaveEffect
  | monitorSave (stats : Nat)
  | saverSave (params : Nat) (global_step : Int)
deriving DecidableEq, Repr

/-- `Agent.save` (agent.py 261-271): guarded entirely by
`if self.learn_started`; when learning has started it performs the two
persistence calls in one invocation, and it assigns no agent field in
either case. Returns the (unchanged) state and the persistence calls. -/
def Agent.save (s : SaveState) : SaveState × List SaveEffect :=
  if s.learn_started then
    (s, [SaveEffect.monitorSave s.monitorStats,
         SaveEffect.saverSave s.agentParams s.t_tf])
  else (s, [])

/-- `tf.argmax` over the last axis with `output_type=tf.int32`: the
smallest index of a maximal entry of the Q-value vector. -/
def tfArgmax (q : List Int) : Nat :=
  (List.range q.length).foldl
    (fun best i => if q.getD best 0 < q.getD i 0 then i else best) 0

/-- The two action tensors built by `BaseDQN.build` (dqn.py 63-65). -/
structure BuiltDQN where
  a_train : Nat → Nat
  a_eval : Nat → Nat

/-- The action-tensor part of `BaseDQN.build` instantiated with `DQN`
(dqn.py 63-65): `self.a_train = self._act_train(agent_net,
name="a_train")`, which for `DQN` is `tf.argmax(agent_net, axis=-1, ...)`
(dqn.py 168-170), followed by `self.a_eval = self._act_eval(agent_net,
name="a_eval")`, which for `DQN` is `tf.identity(self.a_train)`
(dqn.py 173-174) — it ignores its `agent_net` argument and aliases the
already-assigned `a_train`. `agent_net` maps a state to the Q-value
vector the network computes for it. -/
def DQN.buildActions (agent_net : Nat → List Int) : BuiltDQN :=
  let a_train := fun state => tfArgmax (agent_net state)
  let a_eval := a_train
  { a_train := a_train, a_eval := a_eval }

/-- `BaseDQN.action_train` (dqn.py 113-117): run the `a_train` tensor on
the given state. -/
def BaseDQN.action_train (m : BuiltDQN) (state : Nat) : Nat := m.a_train state

/-- `BaseDQN.action_eval` (dqn.py 120-124): run the `a_eval` tensor on
the given state. -/
def BaseDQN.action_eval (m : BuiltDQN) (state : Nat) : Nat := m.a_eval state

theorem mem_pyRange {a b t : Int} : t ∈ pyRange a b ↔ a ≤ t ∧ t < b := by
  simp only [pyRange, List.mem_map, List.mem_range]
  constructor
  · rintro ⟨i, hi, rfl⟩
    omega
  · rintro ⟨h1, h2⟩
    exact ⟨(t - a).toNat, by omega, by omega⟩

theorem train_mem_body (cfg : NetConfig) (ls : Bool) (t u : Int) :
    NetEvent.train u ∈ (trainModelBody cfg ls t).2 ↔
      u = t ∧ cfg.start_train ≤ t ∧ t % cfg.train_freq = 0 := by
  simp only [trainModelBody]
  split_ifs <;> simp_all

theorem sync_mem_body (cfg : NetConfig) (ls : Bool) (t u : Int) :
    NetEvent.syncTarget u ∈ (trainModelBody cfg ls t).2 ↔
      u = t ∧ (cfg.start_train ≤ t ∧ t % cfg.train_freq = 0)
        ∧ t % cfg.update_target_freq = 0 := by
  simp only [trainModelBody]
  split_ifs <;> simp_all

theorem train_mem_loop (cfg : NetConfig) (u : Int) (ts : List Int) :
    ∀ ls : Bool,
      (NetEvent.train u ∈ trainModelLoop cfg ls ts ↔
        u ∈ ts ∧ cfg.start_train ≤ u ∧ u % cfg.train_freq = 0) := by
  induction ts with
  | nil => intro ls; simp [trainModelLoop]
  | cons t ts ih =>
    intro ls
    simp only [trainModelLoop, List.mem_append, List.mem_cons]
    rw [train_mem_body, ih]
    constructor
    · rintro (⟨rfl, h2, h3⟩ | ⟨h1, h2, h3⟩)
      · exact ⟨Or.inl rfl, h2, h3⟩
      · exact ⟨Or.inr h1, h2, h3⟩
    · rintro ⟨rfl | h1, h2, h3⟩
      · exact Or.inl ⟨rfl, h2, h3⟩
      · exact Or.inr ⟨h1, h2, h3⟩

theorem sync_mem_loop (cfg : NetConfig) (u : Int) (ts : List Int) :
    ∀ ls : Bool,
      (NetEvent.syncTarget u ∈ trainModelLoop cfg ls ts ↔
        u ∈ ts ∧ (cfg.start_train ≤ u ∧ u % cfg.train_freq = 0)
          ∧ u % cfg.update_target_freq = 0) := by
  induction ts with
  | nil => intro ls; simp [trainModelLoop]
  | cons t ts ih =>
    intro ls
    simp only [trainModelLoop, List.mem_append, List.mem_cons]
    rw [sync_mem_body, ih]
    constructor
    · rintro (⟨rfl, h2, h3⟩ | ⟨h1, h2, h3⟩)
      · exact ⟨Or.inl rfl, h2, h3⟩
      · exact ⟨Or.inr h1, h2, h3⟩
    · rintro ⟨rfl | h1, h2, h3⟩
      · exact Or.inl ⟨rfl, h2, h3⟩
      · exact Or.inr ⟨h1, h2, h3⟩

/-- C1: for every valid configuration, the learning executor
`_train_model` performs a training step at a step `t` of its range iff
`t >= start_train` and `t % train_freq == 0`; in the scenario
configuration (`train_freq=4`, `start_train=10`, `stop_step=20`,
`start_step=1`) the training steps fire exactly at `t = 12, 16, 20`. -/
theorem trainModel_trains_iff (cfg : NetConfig) (h : 0 < cfg.train_freq) :
    (∀ t ∈ pyRange cfg.start_step (cfg.stop_step + 1),
        (NetEvent.train t ∈ trainModelRun cfg ↔
          cfg.start_train ≤ t ∧ t % cfg.train_freq = 0))
    ∧ (trainModelRun scenarioConfig).filter NetEvent.isTrain
        = [NetEvent.train 12, NetEvent.train 16, NetEvent.train 20] := by
  constructor
  · intro t ht
    rw [trainModelRun, train_mem_loop]
    tauto
  · decide

theorem trainModel_trains_iff_witness :
    NetEvent.train 12 ∈ trainModelRun scenarioConfig := by
  have h := (trainModel_trains_iff scenarioConfig (by decide)).1 12 (by decide)
  exact h.2 (by decide)

/-- C5: the target-network synchronization runs at `t` iff a training
step occurred at `t` and `t % update_target_freq == 0`; in particular it
never occurs at a step with no training step, and in the scenario
configuration with `update_target_freq=10` it fires only at `t = 20`. -/
theorem target_sync_iff (cfg : NetConfig) (h : 0 < cfg.train_freq)
    (h2 : 0 < cfg.update_target_freq) :
    (∀ t : Int,
        (NetEvent.syncTarget t ∈ trainModelRun cfg ↔
          NetEvent.train t ∈ trainModelRun cfg ∧ t % cfg.update_target_freq = 0))
    ∧ (trainModelRun scenarioConfig).filter NetEvent.isSync
        = [NetEvent.syncTarget 20] := by
  constructor
  · intro t
    rw [trainModelRun, sync_mem_loop, train_mem_loop]
    tauto
  · decide

theorem target_sync_iff_witness :
    NetEvent.syncTarget 20 ∈ trainModelRun scenarioConfig := by
  have h := (target_sync_iff scenarioConfig (by decide) (by decide)).1 20
  exact h.2 ⟨by decide, by decide⟩

/-- C3: the restore branch of `Agent.build` does NOT resolve every handle
on a graph written by this program's own build path: the increment op is
created under the name `t_inc_op` (agent.py 97) but looked up as
`t_tf_inc` (agent.py 125), so the restore fails with that handle even
though the op exists in the graph under its build-time name and the
preceding `t_tf:0` tensor lookup succeeds. -/
theorem restore_increment_lookup_fails :
    Agent.buildRestore freshBuildOpNames 101 = Except.error "t_tf_inc"
    ∧ getTensorByName freshBuildOpNames "t_tf:0" = Except.ok "t_tf:0"
    ∧ getOperationByName freshBuildOpNames "t_inc_op" = Except.ok "t_inc_op" := by
  refine ⟨?_, ?_, ?_⟩ <;> rfl

/-- C4: after `save()` at step `t0 = 100` the persisted counter is `101`
(initial value 1, one increment per completed step), and the control-var
assignment of the restore branch (agent.py 140-142) would set
`start_step = 101` and `learn_started = true`; but `build()` on the
self-written graph fails at the `t_tf_inc` lookup (agent.py 125) before
reaching that assignment, so the resume scenario never completes. -/
theorem save_restore_start_step :
    t_tf_after 100 = 101
    ∧ Agent.buildRestore freshBuildOpNames (t_tf_after 100)
        = Except.error "t_tf_inc"
    ∧ restoreControlVars (t_tf_after 100)
        = { start_step := 101, learn_started := true } := by
  refine ⟨?_, ?_, ?_⟩ <;> rfl

theorem pyRange_append (a b c : Int) (hab : a ≤ b) (hbc : b ≤ c) :
    pyRange a b ++ pyRange b c = pyRange a c := by
  unfold pyRange
  have h1 : (c - a).toNat = (b - a).toNat + (c - b).toNat := by omega
  rw [h1, List.range_add, List.map_append, List.map_map]
  congr 1
  apply List.map_congr_left
  intro i _
  simp only [Function.comp_apply]
  omega

theorem evalRunsAfter_eq (eval_len : Int) (r : Nat) :
    evalRunsAfter eval_len r = (r : Int) - 1 := by
  induction r with
  | zero => rfl
  | succ r ih =>
    simp only [evalRunsAfter, evalCallRange, ih]
    push_cast
    ring

theorem nthEvalSteps_eq (eval_len : Int) (r : Nat) :
    nthEvalSteps eval_len r
      = pyRange (eval_len * (r : Int) + 1) (eval_len * (r : Int) + eval_len + 1) := by
  simp only [nthEvalSteps, evalCallRange, evalRunsAfter_eq]
  have h : (r : Int) - 1 + 1 = (r : Int) := by ring
  rw [h]
  have h2 : eval_len + (eval_len * (r : Int) + 1)
      = eval_len * (r : Int) + eval_len + 1 := by ring
  rw [h2]

/-- C6: the `r`-th call (0-indexed) of `eval` — with the run counter
starting at `-1` and incremented at the start of each call — iterates
exactly over the steps `eval_len*r + 1` through `eval_len*r + eval_len`
inclusive, and the step ranges of two consecutive calls tile a single
contiguous range: they neither overlap nor skip a step. -/
theorem eval_range_partition (eval_len : Int) (h : 0 < eval_len) (r : Nat) :
    (∀ t : Int, t ∈ nthEvalSteps eval_len r ↔
        eval_len * (r : Int) + 1 ≤ t ∧ t ≤ eval_len * (r : Int) + eval_len)
    ∧ nthEvalSteps eval_len r ++ nthEvalSteps eval_len (r + 1)
        = pyRange (eval_len * (r : Int) + 1)
            (eval_len * ((r : Int) + 1) + eval_len + 1) := by
  constructor
  · intro t
    rw [nthEvalSteps_eq, mem_pyRange]
    generalize eval_len * (r : Int) = x
    omega
  · have key : eval_len * ((r : Int) + 1) = eval_len * (r : Int) + eval_len := by
      ring
    rw [nthEvalSteps_eq, nthEvalSteps_eq]
    push_cast
    rw [key]
    exact pyRange_append _ _ _ (by linarith) (by linarith)

theorem eval_range_partition_witness : (5 : Int) ∈ nthEvalSteps 3 1 := by
  have h := (eval_range_partition 3 (by norm_num) 1).1 5
  exact h.2 (by norm_num)

/-- C7: with `eval_len <= 0`, the environment executor never invokes
`eval()`, for every `eval_freq` — including `eval_freq = 0`, where the
short-circuit of the guard `self.eval_len > 0 and t % self.eval_freq == 0`
prevents the `ZeroDivisionError`. -/
theorem eval_disabled_never_invoked
    (eval_len eval_freq start_step stop_step : Int) (h : eval_len ≤ 0) :
    runEnvEvalCalls eval_len eval_freq start_step stop_step = some [] := by
  unfold runEnvEvalCalls
  generalize pyRange start_step (stop_step + 1) = ts
  induction ts with
  | nil => rfl
  | cons t ts ih =>
    have hg : evalDueGuard eval_len eval_freq t = some false := by
      unfold evalDueGuard
      rw [if_neg (by omega)]
    simp [runEnvEvalSteps, hg, ih]

theorem eval_disabled_never_invoked_witness :
    runEnvEvalCalls 0 0 1 20 = some [] :=
  eval_disabled_never_invoked 0 0 1 20 (by decide)

/-- C9: `Agent.save` is a no-op (no persistence call, no state change)
when `learn_started` is false; when it is true, the same single call
persists the monitor statistics snapshot and the model parameters keyed
by the timestep counter, still changing no agent state. -/
theorem save_frame_effect (s : SaveState) :
    (s.learn_started = false → Agent.save s = (s, []))
    ∧ (s.learn_started = true →
        Agent.save s =
          (s, [SaveEffect.monitorSave s.monitorStats,
               SaveEffect.saverSave s.agentParams s.t_tf])) := by
  constructor <;> intro h <;> simp [Agent.save, h]

theorem save_frame_effect_witness :
    Agent.save ⟨false, 5, 1, 2⟩ = (⟨false, 5, 1, 2⟩, [])
    ∧ Agent.save ⟨true, 101, 7, 9⟩
        = (⟨true, 101, 7, 9⟩,
           [SaveEffect.monitorSave 9, SaveEffect.saverSave 7 101]) :=
  ⟨(save_frame_effect ⟨false, 5, 1, 2⟩).1 rfl,
   (save_frame_effect ⟨true, 101, 7, 9⟩).2 rfl⟩

theorem evalBody_frame (E : GymEnv) (aE : Nat → Nat → Nat) (cE : Nat → Nat)
    (lf : Int) (s : EvalState) (obs : Nat) (t : Int) :
    (OffPolicyAgent.evalBody E aE cE lf s obs t).2.agentParams = s.agentParams
    ∧ (OffPolicyAgent.evalBody E aE cE lf s obs t).2.replay = s.replay
    ∧ (OffPolicyAgent.evalBody E aE cE lf s obs t).2.mode = s.mode
    ∧ (OffPolicyAgent.evalBody E aE cE lf s obs t).2.modeWrites = s.modeWrites
    ∧ (OffPolicyAgent.evalBody E aE cE lf s obs t).2.eval_runs = s.eval_runs
    ∧ (OffPolicyAgent.evalBody E aE cE lf s obs t).2.learn_started
        = s.learn_started := by
  simp only [OffPolicyAgent.evalBody, Agent.reset]
  split_ifs <;> simp

theorem evalLoop_frame (E : GymEnv) (aE : Nat → Nat → Nat) (cE : Nat → Nat)
    (lf : Int) (ts : List Int) :
    ∀ (obs : Nat) (s : EvalState),
      (OffPolicyAgent.evalLoop E aE cE lf ts obs s).2.agentParams = s.agentParams
      ∧ (OffPolicyAgent.evalLoop E aE cE lf ts obs s).2.replay = s.replay
      ∧ (OffPolicyAgent.evalLoop E aE cE lf ts obs s).2.mode = s.mode
      ∧ (OffPolicyAgent.evalLoop E aE cE lf ts obs s).2.modeWrites = s.modeWrites
      ∧ (OffPolicyAgent.evalLoop E aE cE lf ts obs s).2.eval_runs = s.eval_runs
      ∧ (OffPolicyAgent.evalLoop E aE cE lf ts obs s).2.learn_started
          = s.learn_started := by
  induction ts with
  | nil => intro obs s; simp [OffPolicyAgent.evalLoop]
  | cons t ts ih =>
    intro obs s
    obtain ⟨b1, b2, b3, b4, b5, b6⟩ := evalBody_frame E aE cE lf s obs t
    obtain ⟨l1, l2, l3, l4, l5, l6⟩ :=
      ih (OffPolicyAgent.evalBody E aE cE lf s obs t).1
        (OffPolicyAgent.evalBody E aE cE lf s obs t).2
    simp only [OffPolicyAgent.evalLoop]
    exact ⟨l1.trans b1, l2.trans b2, l3.trans b3, l4.trans b4,
      l5.trans b5, l6.trans b6⟩

theorem evalLoop_agentParams (E : GymEnv) (aE : Nat → Nat → Nat)
    (cE : Nat → Nat) (lf : Int) (ts : List Int) (obs : Nat) (s : EvalState) :
    (OffPolicyAgent.evalLoop E aE cE lf ts obs s).2.agentParams
      = s.agentParams :=
  (evalLoop_frame E aE cE lf ts obs s).1

theorem evalLoop_replay (E : GymEnv) (aE : Nat → Nat → Nat)
    (cE : Nat → Nat) (lf : Int) (ts : List Int) (obs : Nat) (s : EvalState) :
    (OffPolicyAgent.evalLoop E aE cE lf ts obs s).2.replay = s.replay :=
  (evalLoop_frame E aE cE lf ts obs s).2.1

theorem evalLoop_mode (E : GymEnv) (aE : Nat → Nat → Nat)
    (cE : Nat → Nat) (lf : Int) (ts : List Int) (obs : Nat) (s : EvalState) :
    (OffPolicyAgent.evalLoop E aE cE lf ts obs s).2.mode = s.mode :=
  (evalLoop_frame E aE cE lf ts obs s).2.2.1

theorem evalLoop_modeWrites (E : GymEnv) (aE : Nat → Nat → Nat)
    (cE : Nat → Nat) (lf : Int) (ts : List Int) (obs : Nat) (s : EvalState) :
    (OffPolicyAgent.evalLoop E aE cE lf ts obs s).2.modeWrites
      = s.modeWrites :=
  (evalLoop_frame E aE cE lf ts obs s).2.2.2.1

theorem evalLoop_evalRuns (E : GymEnv) (aE : Nat → Nat → Nat)
    (cE : Nat → Nat) (lf : Int) (ts : List Int) (obs : Nat) (s : EvalState) :
    (OffPolicyAgent.evalLoop E aE cE lf ts obs s).2.eval_runs = s.eval_runs :=
  (evalLoop_frame E aE cE lf ts obs s).2.2.2.2.1

theorem evalLoop_learnStarted (E : GymEnv) (aE : Nat → Nat → Nat)
    (cE : Nat → Nat) (lf : Int) (ts : List Int) (obs : Nat) (s : EvalState) :
    (OffPolicyAgent.evalLoop E aE cE lf ts obs s).2.learn_started
      = s.learn_started :=
  (evalLoop_frame E aE cE lf ts obs s).2.2.2.2.2

/-- C8: `eval()` never mutates the learnable parameters or the replay
buffer; it writes the monitor mode exactly twice — `'e'` on entry and
`'t'` on exit, ending in training mode — increments the evaluation run
counter by one, and leaves the remaining agent state (`learn_started`)
unchanged. Quantified over every environment, every evaluation policy
and every episode-state clearing function. -/
theorem eval_frame_effect (E : GymEnv) (actionEval : Nat → Nat → Nat)
    (clearEp : Nat → Nat) (eval_len log_freq : Int) (s : EvalState) :
    (OffPolicyAgent.eval E actionEval clearEp eval_len log_freq s).agentParams
        = s.agentParams
    ∧ (OffPolicyAgent.eval E actionEval clearEp eval_len log_freq s).replay
        = s.replay
    ∧ (OffPolicyAgent.eval E actionEval clearEp eval_len log_freq s).mode = 't'
    ∧ (OffPolicyAgent.eval E actionEval clearEp eval_len log_freq s).modeWrites
        = s.modeWrites ++ ['e', 't']
    ∧ (OffPolicyAgent.eval E actionEval clearEp eval_len log_freq s).eval_runs
        = s.eval_runs + 1
    ∧ (OffPolicyAgent.eval E actionEval clearEp eval_len log_freq s).learn_started
        = s.learn_started := by
  simp only [OffPolicyAgent.eval]
  simp [evalLoop_agentParams, evalLoop_replay, evalLoop_mode,
    evalLoop_modeWrites, evalLoop_evalRuns, evalLoop_learnStarted]

/-- C10: for the DQN model the evaluation action equals the training
action on every state — `a_eval` is `tf.identity(a_train)` and both are
the argmax of the agent network's Q-values. -/
theorem dqn_eval_action_eq_train (agent_net : Nat → List Int) (state : Nat) :
    BaseDQN.action_eval (DQN.buildActions agent_net) state
      = BaseDQN.action_train (DQN.buildActions agent_net) state
    ∧ BaseDQN.action_train (DQN.buildActions agent_net) state
      = tfArgmax (agent_net state) :=
  ⟨rfl, rfl⟩

theorem syncSteps_trans {a b c : Sync} (h1 : SyncSteps a b)
    (h2 : SyncSteps b c) : SyncSteps a c := by
  induction h1 with
  | refl => exact h2
  | step hs _ ih => exact SyncSteps.step hs (ih h2)

theorem syncSteps_cons {s s' t : Sync} (hdet : ∀ u, SyncStep s u → u = s')
    (hstep : ∃ u, SyncStep s u) (h : SyncSteps s t) (ht : SyncTerminal t) :
    SyncSteps s' t := by
  cases h with
  | refl => obtain ⟨u, hu⟩ := hstep; exact absurd hu (ht u)
  | step h1 h2 => exact (hdet _ h1) ▸ h2

theorem det_round_1 (E N : List Instr) (tr : List Sig) :
    ∀ u, SyncStep ⟨false, true, Instr.wait Sig.trainDone :: E,
        Instr.wait Sig.actChosen :: N, tr⟩ u →
      u = ⟨false, false, E, Instr.wait Sig.actChosen :: N, tr⟩ := by
  intro u h
  cases h
  case envWait e rest h1 h2 =>
    simp only [List.cons.injEq, Instr.wait.injEq] at h1
    obtain ⟨h1a, h1b⟩ := h1
    subst h1a
    subst h1b
    rfl
  case envSignal e rest h1 => simp at h1
  case netWait e rest h1 h2 =>
    simp only [List.cons.injEq, Instr.wait.injEq] at h1
    obtain ⟨h1a, h1b⟩ := h1
    subst h1a
    simp [getFlag] at h2
  case netSignal e rest h1 => simp at h1

theorem det_round_2 (E N : List Instr) (tr : List Sig) :
    ∀ u, SyncStep ⟨false, false, Instr.signal Sig.actChosen :: E,
        Instr.wait Sig.actChosen :: N, tr⟩ u →
      u = ⟨true, false, E, Instr.wait Sig.actChosen :: N,
            tr ++ [Sig.actChosen]⟩ := by
  intro u h
  cases h
  case envWait e rest h1 h2 => simp at h1
  case envSignal e rest h1 =>
    simp only [List.cons.injEq, Instr.signal.injEq] at h1
    obtain ⟨h1a, h1b⟩ := h1
    subst h1a
    subst h1b
    rfl
  case netWait e rest h1 h2 =>
    simp only [List.cons.injEq, Instr.wait.injEq] at h1
    obtain ⟨h1a, h1b⟩ := h1
    subst h1a
    simp [getFlag] at h2
  case netSignal e rest h1 => simp at h1

theorem det_round_3 (k : Nat) (N : List Instr) (tr : List Sig) :
    ∀ u, SyncStep ⟨true, false, envProg k,
        Instr.wait Sig.actChosen :: N, tr⟩ u →
      u = ⟨false, false, envProg k, N, tr⟩ := by
  intro u h
  cases h
  case envWait e rest h1 h2 =>
    cases k with
    | zero => simp [envProg] at h1
    | succ n =>
      simp only [envProg, List.cons.injEq, Instr.wait.injEq] at h1
      obtain ⟨h1a, h1b⟩ := h1
      subst h1a
      simp [getFlag] at h2
  case envSignal e rest h1 =>
    cases k with
    | zero => simp [envProg] at h1
    | succ n => simp [envProg] at h1
  case netWait e rest h1 h2 =>
    simp only [List.cons.injEq, Instr.wait.injEq] at h1
    obtain ⟨h1a, h1b⟩ := h1
    subst h1a
    subst h1b
    rfl
  case netSignal e rest h1 => simp at h1

theorem det_round_4 (k : Nat) (N : List Instr) (tr : List Sig) :
    ∀ u, SyncStep ⟨false, false, envProg k,
        Instr.signal Sig.trainDone :: N, tr⟩ u →
      u = ⟨false, true, envProg k, N, tr ++ [Sig.trainDone]⟩ := by
  intro u h
  cases h
  case envWait e rest h1 h2 =>
    cases k with
    | zero => simp [envProg] at h1
    | succ n =>
      simp only [envProg, List.cons.injEq, Instr.wait.injEq] at h1
      obtain ⟨h1a, h1b⟩ := h1
      subst h1a
      simp [getFlag] at h2
  case envSignal e rest h1 =>
    cases k with
    | zero => simp [envProg] at h1
    | succ n => simp [envProg] at h1
  case netWait e rest h1 h2 => simp at h1
  case netSignal e rest h1 =>
    simp only [List.cons.injEq, Instr.signal.injEq] at h1
    obtain ⟨h1a, h1b⟩ := h1
    subst h1a
    subst h1b
    rfl

theorem terminal_empty (a t : Bool) (tr : List Sig) :
    SyncTerminal ⟨a, t, [], [], tr⟩ := by
  intro s' h
  cases h <;> simp_all

theorem run_round (k : Nat) (tr : List Sig) {t : Sync}
    (h : SyncSteps ⟨false, true, envProg (k + 1), netProg (k + 1), tr⟩ t)
    (ht : SyncTerminal t) :
    SyncSteps ⟨false, true, envProg k, netProg k,
      tr ++ [Sig.actChosen, Sig.trainDone]⟩ t := by
  rw [envProg, netProg] at h
  have h1 := syncSteps_cons (det_round_1 _ _ _)
    ⟨_, SyncStep.envWait _ Sig.trainDone _ rfl rfl⟩ h ht
  have h2 := syncSteps_cons (det_round_2 _ _ _)
    ⟨_, SyncStep.envSignal _ Sig.actChosen _ rfl⟩ h1 ht
  have h3 := syncSteps_cons (det_round_3 _ _ _)
    ⟨_, SyncStep.netWait _ Sig.actChosen _ rfl rfl⟩ h2 ht
  have h4 := syncSteps_cons (det_round_4 _ _ _)
    ⟨_, SyncStep.netSignal _ Sig.trainDone _ rfl⟩ h3 ht
  simpa [List.append_assoc] using h4

theorem run_nil (tr : List Sig) {t : Sync}
    (h : SyncSteps ⟨false, true, [], [], tr⟩ t) :
    t = ⟨false, true, [], [], tr⟩ := by
  cases h with
  | refl => rfl
  | step h1 _ => cases h1 <;> simp_all

theorem run_terminal (n : Nat) : ∀ (tr : List Sig) (t : Sync),
    SyncSteps ⟨false, true, envProg n, netProg n, tr⟩ t → SyncTerminal t →
    t = ⟨false, true, [], [], tr ++ handshakeTrace n⟩ := by
  induction n with
  | zero =>
    intro tr t h _
    have he := run_nil tr h
    simp [handshakeTrace, he]
  | succ n ih =>
    intro tr t h ht
    have h4 := run_round n tr h ht
    have he := ih (tr ++ [Sig.actChosen, Sig.trainDone]) t h4 ht
    simp only [he, handshakeTrace]
    simp [List.append_assoc]

theorem run_exists (n : Nat) : ∀ tr : List Sig,
    SyncSteps ⟨false, true, envProg n, netProg n, tr⟩
      ⟨false, true, [], [], tr ++ handshakeTrace n⟩ := by
  induction n with
  | zero =>
    intro tr
    simpa [handshakeTrace] using SyncSteps.refl
      (Sync.mk false true [] [] tr)
  | succ n ih =>
    intro tr
    have h4 : SyncSteps ⟨false, true, envProg (n + 1), netProg (n + 1), tr⟩
        ⟨false, true, envProg n, netProg n,
          tr ++ [Sig.actChosen, Sig.trainDone]⟩ := by
      refine SyncSteps.step (SyncStep.envWait _ Sig.trainDone _ rfl rfl) ?_
      refine SyncSteps.step (SyncStep.envSignal _ Sig.actChosen _ rfl) ?_
      refine SyncSteps.step (SyncStep.netWait _ Sig.actChosen _ rfl rfl) ?_
      have hs : SyncStep ⟨false, false, envProg n,
            Instr.signal Sig.trainDone :: netProg n, tr ++ [Sig.actChosen]⟩
          ⟨false, true, envProg n, netProg n,
            (tr ++ [Sig.actChosen]) ++ [Sig.trainDone]⟩ :=
        SyncStep.netSignal _ Sig.trainDone _ rfl
      rw [List.append_assoc] at hs
      exact SyncSteps.step hs (SyncSteps.refl _)
    have h5 := ih (tr ++ [Sig.actChosen, Sig.trainDone])
    have h6 := syncSteps_trans h4 h5
    rw [List.append_assoc] at h6
    exact h6

theorem countSig_handshake_ac (n : Nat) :
    countSig Sig.actChosen (handshakeTrace n) = n := by
  induction n with
  | zero => rfl
  | succ n ih => simp [handshakeTrace, countSig, ih, Nat.add_comm]

theorem countSig_handshake_td (n : Nat) :
    countSig Sig.trainDone (handshakeTrace n) = n := by
  induction n with
  | zero => rfl
  | succ n ih => simp [handshakeTrace, countSig, ih, Nat.add_comm]

theorem alternates_handshake (n : Nat) :
    alternates (Sig.trainDone :: handshakeTrace n) = true := by
  induction n with
  | zero => rfl
  | succ n ih => simp_all [handshakeTrace, alternates]

/-- C2: before either executor thread starts, `train()` clears
`act_chosen` and pre-sets `train_done`; a complete run of the two
executors over `n` steps exists, and every complete (terminal) run emits
exactly `n` `act_chosen` and `n` `train_done` signal events whose
sequence, headed by the pre-set `train_done`, alternates strictly —
`train_done, act_chosen, train_done, act_chosen, ...` — so at no point is
more than one action choice or one training step unacknowledged; each
signal is cleared by its waiter as it is observed (built into the `wait`
semantics of `SyncStep`). -/
theorem handshake_alternation (n : Nat) :
    (initSync n).actChosen = false ∧ (initSync n).trainDone = true
    ∧ (∃ t, SyncSteps (initSync n) t ∧ SyncTerminal t)
    ∧ (∀ t, SyncSteps (initSync n) t → SyncTerminal t →
        t.trace = handshakeTrace n
        ∧ countSig Sig.actChosen t.trace = n
        ∧ countSig Sig.trainDone t.trace = n
        ∧ alternates (Sig.trainDone :: t.trace) = true) := by
  refine ⟨rfl, rfl,
    ⟨⟨false, true, [], [], handshakeTrace n⟩, ?_, terminal_empty _ _ _⟩, ?_⟩
  · exact run_exists n []
  · intro t h ht
    have he := run_terminal n [] t h ht
    refine ⟨?_, ?_, ?_, ?_⟩ <;>
      simp [he, countSig_handshake_ac, countSig_handshake_td,
        alternates_handshake]

theorem handshake_alternation_witness :
    ∃ t, SyncSteps (initSync 2) t ∧ SyncTerminal t
      ∧ countSig Sig.actChosen t.trace = 2
      ∧ countSig Sig.trainDone t.trace = 2
      ∧ alternates (Sig.trainDone :: t.trace) = true := by
  obtain ⟨c1, c2, ⟨t, h1, h2⟩, c4⟩ := handshake_alternation 2
  obtain ⟨d1, d2, d3, d4⟩ := c4 t h1 h2
  exact ⟨t, h1, h2, d2, d3, d4⟩
